import Mathlib

/-!
Verification development for the scribble streaming transcription library.

Shallow embedding conventions:
- Rust `usize`/`u32` arithmetic is modelled on `Nat`; the saturating operations
  (`saturating_add`, `saturating_mul`, `saturating_sub`) the source uses are
  modelled explicitly with the corresponding caps.
- `f32` audio samples and timestamps are modelled as `ℚ`; the sample values are
  never inspected by the control logic verified here.
- Rust `Result<T, anyhow::Error>` is modelled as `Except String T` (or
  `Except AError T` where the error context chain matters).
- The external Whisper / Silero inference calls are modelled as oracle
  function parameters: the embedded control flow is exactly the source's.
-/

namespace Scribble

/-- `audio_pipeline.rs` / `decoder.rs`: target mono sample rate (Hz). -/
def WHISPER_SAMPLE_RATE : Nat := 16000

/-- `incremental.rs`: default minimum buffer duration before running Whisper. -/
def DEFAULT_MIN_BUFFER_SECONDS : Nat := 1

/-- `incremental.rs`: maximum buffer size (seconds) before progress is forced. -/
def DEFAULT_MAX_BUFFER_SECONDS : Nat := 30

/-- `incremental.rs`: max exponential backoff shift (up to 16x). -/
def MAX_BACKOFF_SHIFT : Nat := 4

/-- Largest value of a 64-bit `usize`. -/
def USIZE_MAX : Nat := 2 ^ 64 - 1

/-- Largest value of a `u32`. -/
def U32_MAX : Nat := 2 ^ 32 - 1

/-- Rust `usize::saturating_add`. -/
def satAddUsize (a b : Nat) : Nat := min (a + b) USIZE_MAX

/-- Rust `usize::saturating_mul`. -/
def satMulUsize (a b : Nat) : Nat := min (a * b) USIZE_MAX

/-- Rust `u32::saturating_add`. -/
def satAddU32 (a b : Nat) : Nat := min (a + b) U32_MAX

/-! ## Timestamp formatting (`vtt_encoder.rs`) -/

/-- Rust `f32::round`: round half away from zero, modelled on `ℚ`. -/
def rustRound (x : ℚ) : Int := if 0 ≤ x then ⌊x + 1/2⌋ else -⌊-x + 1/2⌋

/-- Rust `as u64` on a float value already rounded to an integer:
saturating cast (negative to 0, above `u64::MAX` to the max). -/
def castToU64 (i : Int) : Nat := min i.toNat (2 ^ 64 - 1)

/-- Zero-padded 2-digit decimal rendering (Rust `{:02}`). -/
def pad2 (n : Nat) : String := if n < 10 then "0" ++ toString n else toString n

/-- Zero-padded 3-digit decimal rendering (Rust `{:03}`). -/
def pad3 (n : Nat) : String :=
  if n < 10 then "00" ++ toString n
  else if n < 100 then "0" ++ toString n
  else toString n

/-- `vtt_encoder.rs::format_timestamp_vtt`: format seconds into a WebVTT
timestamp `HH:MM:SS.mmm`, rounding to the nearest millisecond. -/
def format_timestamp_vtt (seconds : ℚ) : String :=
  let total_ms := castToU64 (rustRound (seconds * 1000))
  let ms := total_ms % 1000
  let total_s := total_ms / 1000
  let s := total_s % 60
  let total_m := total_s / 60
  let m := total_m % 60
  let h := total_m / 60
  pad2 h ++ ":" ++ pad2 m ++ ":" ++ pad2 s ++ "." ++ pad3 ms

/-- Rendering rule as the spec words it: the total millisecond count is
decomposed as `HH:MM:SS.mmm`. Used to compare the source function against the
spec's description. -/
def vttRenderSpec (totalMs : Nat) : String :=
  pad2 (totalMs / 1000 / 60 / 60) ++ ":" ++ pad2 (totalMs / 1000 / 60 % 60) ++ ":"
    ++ pad2 (totalMs / 1000 % 60) ++ "." ++ pad3 (totalMs % 1000)

example : format_timestamp_vtt (4 / 10000) = "00:00:00.000" := by
  norm_num [format_timestamp_vtt, rustRound, castToU64, pad2, pad3]
  rfl

example : format_timestamp_vtt (5 / 10000) = "00:00:00.001" := by
  norm_num [format_timestamp_vtt, rustRound, castToU64, pad2, pad3]
  rfl

example : format_timestamp_vtt (19995 / 10000) = "00:00:02.000" := by
  norm_num [format_timestamp_vtt, rustRound, castToU64, pad2, pad3]
  rfl

example : format_timestamp_vtt (612 / 10) = "00:01:01.200" := by
  norm_num [format_timestamp_vtt, rustRound, castToU64, pad2, pad3]
  rfl

/-! ## Segment data model (`segments.rs`, `token.rs`) -/

/-- `token.rs::Token`: timestamps in seconds, modelled as `ℚ`. -/
structure Token where
  start_seconds : ℚ
  end_seconds : ℚ
  text : String
  probability : ℚ
  deriving Repr, DecidableEq

/-- `segments.rs::Segment`: a single transcription segment. -/
structure Segment where
  start_seconds : ℚ
  end_seconds : ℚ
  text : String
  tokens : List Token
  language_code : String
  deriving Repr, DecidableEq

/-! ## Segment encoders (`json_array_encoder.rs`, `vtt_encoder.rs`)

Both encoders stream into an `io::Write`; the bytes written so far are
modelled as a `String` field `out`.  `write_all`/`writeln!` append,
`flush` is a no-op on the byte stream. -/

/-- `json_array_encoder.rs::JsonArrayEncoder` state. -/
structure JsonArrayEncoder where
  out : String
  started : Bool
  first : Bool
  closed : Bool
  deriving Repr, DecidableEq

/-- `JsonArrayEncoder::new`. -/
def JsonArrayEncoder.new : JsonArrayEncoder :=
  { out := "", started := false, first := true, closed := false }

/-- `JsonArrayEncoder::start_if_needed`: write the opening `[` lazily. -/
def JsonArrayEncoder.start_if_needed (e : JsonArrayEncoder) : JsonArrayEncoder :=
  if ¬e.started then { e with out := e.out ++ "[", started := true } else e

/-- `JsonArrayEncoder::write_segment`.  The serde JSON rendering of the
segment is an external library call, abstracted as the `render` parameter. -/
def JsonArrayEncoder.write_segment (render : Segment → String) (e : JsonArrayEncoder)
    (seg : Segment) : JsonArrayEncoder × Except String Unit :=
  if e.closed then (e, .error "cannot write segment: encoder is already closed")
  else
    let e := e.start_if_needed
    let e := if ¬e.first then { e with out := e.out ++ "," } else e
    let e := { e with first := false }
    ({ e with out := e.out ++ render seg }, .ok ())

/-- `JsonArrayEncoder::close`: idempotent; emits `[` (if needed) and `]`. -/
def JsonArrayEncoder.close (e : JsonArrayEncoder) : JsonArrayEncoder × Except String Unit :=
  if e.closed then (e, .ok ())
  else
    let e := e.start_if_needed
    ({ e with out := e.out ++ "]", closed := true }, .ok ())

/-- `vtt_encoder.rs::VttEncoder` state. -/
structure VttEncoder where
  out : String
  started : Bool
  closed : Bool
  deriving Repr, DecidableEq

/-- `VttEncoder::new`. -/
def VttEncoder.new : VttEncoder := { out := "", started := false, closed := false }

/-- `VttEncoder::start_if_needed`: write the `WEBVTT` header lazily. -/
def VttEncoder.start_if_needed (e : VttEncoder) : VttEncoder :=
  if ¬e.started then { e with out := e.out ++ "WEBVTT\n\n", started := true } else e

/-- `VttEncoder::write_segment`: cue timing line, cue text, blank line. -/
def VttEncoder.write_segment (e : VttEncoder) (seg : Segment) :
    VttEncoder × Except String Unit :=
  if e.closed then (e, .error "cannot write segment: encoder is already closed")
  else
    let e := e.start_if_needed
    let line := format_timestamp_vtt seg.start_seconds ++ " --> "
      ++ format_timestamp_vtt seg.end_seconds ++ "\n"
    ({ e with out := e.out ++ line ++ seg.text ++ "\n" ++ "\n" }, .ok ())

/-- `VttEncoder::close`: flush only; idempotent. -/
def VttEncoder.close (e : VttEncoder) : VttEncoder × Except String Unit :=
  if e.closed then (e, .ok ())
  else ({ e with closed := true }, .ok ())

/-- Run a sequence of `write_segment` calls on a JSON encoder, keeping the
final state (the source call sites discard per-write results on this path). -/
def jsonRunWrites (render : Segment → String) (e : JsonArrayEncoder)
    (segs : List Segment) : JsonArrayEncoder :=
  segs.foldl (fun e s => (JsonArrayEncoder.write_segment render e s).1) e

/-- Run a sequence of `write_segment` calls on a VTT encoder. -/
def vttRunWrites (e : VttEncoder) (segs : List Segment) : VttEncoder :=
  segs.foldl (fun e s => (VttEncoder.write_segment e s).1) e

lemma json_close_marks_closed (e : JsonArrayEncoder) : (e.close).1.closed = true := by
  unfold JsonArrayEncoder.close JsonArrayEncoder.start_if_needed
  by_cases h : e.closed <;> simp [h]

lemma json_close_noop_when_closed (e : JsonArrayEncoder) (h : e.closed = true) :
    e.close = (e, .ok ()) := by
  simp [JsonArrayEncoder.close, h]

lemma vtt_close_marks_closed (e : VttEncoder) : (e.close).1.closed = true := by
  unfold VttEncoder.close
  by_cases h : e.closed <;> simp [h]

lemma vtt_close_noop_when_closed (e : VttEncoder) (h : e.closed = true) :
    e.close = (e, .ok ()) := by
  simp [VttEncoder.close, h]

/-- C4: the VTT encoder renders a segment time `t` (seconds) as `HH:MM:SS.mmm`
where the total millisecond count is `t × 1000` rounded to the nearest
millisecond (half away from zero, as Rust `f32::round` does); in particular
0.0004 s renders as "00:00:00.000", 0.0005 s as "00:00:00.001", 1.9995 s as
"00:00:02.000", and 61.2 s as "00:01:01.200". -/
theorem vtt_timestamp_rounds_to_nearest_millisecond :
    (∀ t : ℚ, format_timestamp_vtt t = vttRenderSpec (castToU64 (rustRound (t * 1000)))) ∧
    format_timestamp_vtt (4 / 10000) = "00:00:00.000" ∧
    format_timestamp_vtt (5 / 10000) = "00:00:00.001" ∧
    format_timestamp_vtt (19995 / 10000) = "00:00:02.000" ∧
    format_timestamp_vtt (612 / 10) = "00:01:01.200" := by
  refine ⟨fun t => ?_, ?_, ?_, ?_, ?_⟩
  · simp only [format_timestamp_vtt, vttRenderSpec, Nat.div_div_eq_div_mul]
  all_goals
    norm_num [format_timestamp_vtt, rustRound, castToU64, pad2, pad3]
    rfl

/-- C5: for both the JSON-array encoder and the VTT encoder, after any
sequence of prior `write_segment` calls, calling `close()` twice produces
exactly the same output bytes and the same results as calling it once; with
zero writes the JSON encoder still yields exactly `"[]"`. -/
theorem encoder_close_is_idempotent (render : Segment → String) (segs : List Segment) :
    ((jsonRunWrites render JsonArrayEncoder.new segs).close.1.close
        = ((jsonRunWrites render JsonArrayEncoder.new segs).close.1, .ok ()) ∧
      (jsonRunWrites render JsonArrayEncoder.new segs).close.2 = .ok ()) ∧
    ((vttRunWrites VttEncoder.new segs).close.1.close
        = ((vttRunWrites VttEncoder.new segs).close.1, .ok ()) ∧
      (vttRunWrites VttEncoder.new segs).close.2 = .ok ()) ∧
    JsonArrayEncoder.new.close.1.out = "[]" ∧
    JsonArrayEncoder.new.close.1.close.1.out = "[]" := by
  refine ⟨⟨?_, ?_⟩, ⟨?_, ?_⟩, ?_, ?_⟩
  · exact json_close_noop_when_closed _ (json_close_marks_closed _)
  · by_cases h : (jsonRunWrites render JsonArrayEncoder.new segs).closed <;>
      simp [JsonArrayEncoder.close, h]
  · exact vtt_close_noop_when_closed _ (vtt_close_marks_closed _)
  · by_cases h : (vttRunWrites VttEncoder.new segs).closed <;>
      simp [VttEncoder.close, h]
  · rfl
  · rfl

/-- C6: for both encoders, every `write_segment` call made after `close()`
returns an error and leaves the state (in particular the output bytes
produced so far) unchanged. -/
theorem encoder_write_after_close_errors (render : Segment → String)
    (segs : List Segment) (seg : Segment) :
    JsonArrayEncoder.write_segment render
        (jsonRunWrites render JsonArrayEncoder.new segs).close.1 seg
      = ((jsonRunWrites render JsonArrayEncoder.new segs).close.1,
         .error "cannot write segment: encoder is already closed") ∧
    VttEncoder.write_segment (vttRunWrites VttEncoder.new segs).close.1 seg
      = ((vttRunWrites VttEncoder.new segs).close.1,
         .error "cannot write segment: encoder is already closed") := by
  constructor
  · simp [JsonArrayEncoder.write_segment, json_close_marks_closed]
  · simp [VttEncoder.write_segment, vtt_close_marks_closed]

/-! ## Configuration (`opts.rs`, `output_type.rs`, `vad/to_speech.rs`) -/

/-- `output_type.rs::OutputType`. -/
inductive OutputType where
  | Json
  | Vtt
  deriving Repr, DecidableEq

/-- `vad/to_speech.rs::VadPolicy`. -/
structure VadPolicy where
  threshold : ℚ
  pre_pad_ms : Nat
  post_pad_ms : Nat
  min_speech_ms : Nat
  gap_merge_ms : Nat
  non_speech_gain : ℚ
  deriving Repr, DecidableEq

/-- `vad/to_speech.rs::DEFAULT_VAD_POLICY`. -/
def DEFAULT_VAD_POLICY : VadPolicy :=
  { threshold := 1/2, pre_pad_ms := 250, post_pad_ms := 250,
    min_speech_ms := 250, gap_merge_ms := 300, non_speech_gain := 0 }

/-- `opts.rs::Opts`. -/
structure Opts where
  model_key : Option String
  enable_translate_to_english : Bool
  enable_voice_activity_detection : Bool
  language : Option String
  output_type : OutputType
  incremental_min_window_seconds : Nat
  emit_single_segments : Bool
  vad_policy : Option VadPolicy
  deriving Repr, DecidableEq

/-! ## Incremental transcriber (`incremental.rs`)

The Whisper context, the `Opts` reference and the encoder held by
`BufferedSegmentTranscriber` only flow into the external calls
(`run_whisper_full`, `to_segment`, `encoder.write_segment`).  The inference
call is abstracted as an oracle `infer : List ℚ → List Int` mapping the live
window to the list of returned segments' end timestamps (centiseconds);
`process_available` reads nothing else from the returned segments.  The
emitted segments are reported as a count in the step result.  Note that the
source processing logic reads no field of `Opts`. -/

structure BufferedSegmentTranscriber where
  min_window_samples : Nat
  max_window_samples : Nat
  next_infer_at_samples : Nat
  no_progress_runs : Nat
  samples : List ℚ
  head : Nat
  advanced_samples : Nat
  deriving Repr, DecidableEq

/-- `BufferedSegmentTranscriber::new`: the thresholds are computed from the
compile-time constants; the `opts` argument is stored but contributes nothing
to them. -/
def BufferedSegmentTranscriber.new (_opts : Opts) : BufferedSegmentTranscriber :=
  { min_window_samples := WHISPER_SAMPLE_RATE * DEFAULT_MIN_BUFFER_SECONDS
    max_window_samples := WHISPER_SAMPLE_RATE * DEFAULT_MAX_BUFFER_SECONDS
    next_infer_at_samples := WHISPER_SAMPLE_RATE * DEFAULT_MIN_BUFFER_SECONDS
    no_progress_runs := 0
    samples := []
    head := 0
    advanced_samples := 0 }

/-- `BufferedSegmentTranscriber::window`: the live window `samples[head..]`. -/
def BufferedSegmentTranscriber.window (s : BufferedSegmentTranscriber) : List ℚ :=
  s.samples.drop s.head

/-- `BufferedSegmentTranscriber::window_len` (`len.saturating_sub(head)`). -/
def BufferedSegmentTranscriber.window_len (s : BufferedSegmentTranscriber) : Nat :=
  s.samples.length - s.head

/-- `BufferedSegmentTranscriber::maybe_compact`. -/
def BufferedSegmentTranscriber.maybe_compact (s : BufferedSegmentTranscriber) :
    BufferedSegmentTranscriber :=
  if s.head = 0 then s
  else if WHISPER_SAMPLE_RATE ≤ s.head ∨ s.samples.length / 2 ≤ s.head then
    { s with samples := s.samples.drop s.head, head := 0 }
  else s

/-- `incremental.rs::next_infer_threshold`. -/
def next_infer_threshold (current_len min_window_samples max_window_samples : Nat)
    (no_progress_runs : Nat) : Nat :=
  let shift := min (no_progress_runs - 1) MAX_BACKOFF_SHIFT
  let step := satMulUsize min_window_samples (2 ^ shift)
  let proposed := satAddUsize current_len step
  min proposed max_window_samples

/-- `incremental.rs::segment_end_samples`: centiseconds → samples, clamped
into `[1, available_samples]`; negative timestamps are an error. -/
def segment_end_samples (end_timestamp_cs : Int) (available_samples : Nat) :
    Except String Nat :=
  if end_timestamp_cs < 0 then
    .error "whisper returned negative end timestamp"
  else
    let cs : Nat := end_timestamp_cs.toNat
    let e := satMulUsize cs WHISPER_SAMPLE_RATE / 100
    let e := if e = 0 then 1 else e
    let e := if available_samples < e then available_samples else e
    .ok e

/-- `incremental.rs::Progress`. -/
inductive Progress where
  | NoOp
  | Advanced
  deriving Repr, DecidableEq

/-- Result of one `process_available` call: the updated state, the reported
progress, the number of segments written to the encoder, and whether the
inference oracle was invoked. -/
structure StepResult where
  state : BufferedSegmentTranscriber
  progress : Progress
  emitted : Nat
  infer_ran : Bool
  deriving Repr, DecidableEq

/-- The `no_progress_runs` / `next_infer_at_samples` update performed on the
two no-progress paths of `process_available`. -/
def BufferedSegmentTranscriber.record_no_progress (win_len : Nat)
    (s : BufferedSegmentTranscriber) : BufferedSegmentTranscriber :=
  let runs := satAddU32 s.no_progress_runs 1
  { s with
      no_progress_runs := runs,
      next_infer_at_samples :=
        next_infer_threshold win_len s.min_window_samples s.max_window_samples runs }

/-- `force_flush = end_of_stream || win_len >= self.max_window_samples`. -/
def force_flush_of (end_of_stream : Bool) (win_len max_window_samples : Nat) : Bool :=
  end_of_stream || decide (max_window_samples ≤ win_len)

/-- The finalization rule of `process_available`: how many of the `n`
returned segments are emitted. -/
def emit_count_of (force_flush : Bool) (n : Nat) : Nat :=
  if force_flush then n else if 2 ≤ n then n - 1 else 0

/-- The advancing tail of `process_available`: `head += end_samples`,
`advanced_samples += end_samples`, compact, reset backoff, and schedule the
next inference point. -/
def BufferedSegmentTranscriber.advance_by (force_flush : Bool) (end_samples : Nat)
    (s : BufferedSegmentTranscriber) : BufferedSegmentTranscriber :=
  let s1 := { s with head := s.head + end_samples,
                     advanced_samples := s.advanced_samples + end_samples }
  let s2 := s1.maybe_compact
  let nia :=
    if force_flush = false then s2.window_len + s.min_window_samples
    else s.min_window_samples
  { s2 with no_progress_runs := 0, next_infer_at_samples := nia }

/-- `BufferedSegmentTranscriber::process_available`. -/
def process_available (infer : List ℚ → List Int) (end_of_stream : Bool)
    (s : BufferedSegmentTranscriber) : Except String StepResult :=
  if s.window_len = 0 then .ok ⟨s, .NoOp, 0, false⟩
  else if end_of_stream = false ∧ s.window_len < s.min_window_samples then
    .ok ⟨s, .NoOp, 0, false⟩
  else if force_flush_of end_of_stream s.window_len s.max_window_samples = false
      ∧ s.window_len < s.next_infer_at_samples then
    .ok ⟨s, .NoOp, 0, false⟩
  else if (infer s.window).length = 0 then
    if force_flush_of end_of_stream s.window_len s.max_window_samples = false then
      .ok ⟨s.record_no_progress s.window_len, .NoOp, 0, true⟩
    else .ok ⟨s, .NoOp, 0, true⟩
  else if emit_count_of (force_flush_of end_of_stream s.window_len s.max_window_samples)
      (infer s.window).length = 0 then
    .ok ⟨s.record_no_progress s.window_len, .NoOp, 0, true⟩
  else
    match (infer s.window)[emit_count_of
        (force_flush_of end_of_stream s.window_len s.max_window_samples)
        (infer s.window).length - 1]? with
    | none => .error "whisper segment was missing"
    | some last_end =>
      match segment_end_samples last_end s.window_len with
      | .error e => .error e
      | .ok end_samples =>
        .ok ⟨s.advance_by
              (force_flush_of end_of_stream s.window_len s.max_window_samples)
              end_samples,
            .Advanced,
            emit_count_of (force_flush_of end_of_stream s.window_len s.max_window_samples)
              (infer s.window).length,
            true⟩

/-- `SamplesSink::on_samples` for `BufferedSegmentTranscriber`: append the
chunk and run one processing step with `end_of_stream = false`. -/
def on_samples (infer : List ℚ → List Int) (s : BufferedSegmentTranscriber)
    (chunk : List ℚ) : Except String (BufferedSegmentTranscriber × Bool) :=
  let s := { s with samples := s.samples ++ chunk }
  match process_available infer false s with
  | .error e => .error e
  | .ok r => .ok (r.state, true)

lemma segment_end_samples_ok_bounds {cs : Int} {avail e : Nat}
    (h : segment_end_samples cs avail = .ok e) : e ≤ avail ∧ (1 ≤ avail → 1 ≤ e) := by
  unfold segment_end_samples at h
  split at h
  · exact absurd h (by simp)
  · simp only [Except.ok.injEq] at h
    subst h
    constructor
    · split_ifs <;> omega
    · intro ha
      split_ifs <;> omega

lemma BufferedSegmentTranscriber.maybe_compact_window_len
    (s : BufferedSegmentTranscriber) : s.maybe_compact.window_len = s.window_len := by
  unfold BufferedSegmentTranscriber.maybe_compact BufferedSegmentTranscriber.window_len
  split_ifs <;> simp [List.length_drop]

lemma BufferedSegmentTranscriber.maybe_compact_head_le
    (s : BufferedSegmentTranscriber) (h : s.head ≤ s.samples.length) :
    s.maybe_compact.head ≤ s.maybe_compact.samples.length := by
  unfold BufferedSegmentTranscriber.maybe_compact
  split_ifs <;> simp [h]

lemma BufferedSegmentTranscriber.maybe_compact_advanced
    (s : BufferedSegmentTranscriber) :
    s.maybe_compact.advanced_samples = s.advanced_samples := by
  unfold BufferedSegmentTranscriber.maybe_compact
  split_ifs <;> rfl

/-- Facts about the advancing tail of `process_available`, assuming the
advance stays inside the buffer. -/
lemma BufferedSegmentTranscriber.advance_by_spec (ff : Bool) (e : Nat)
    (s : BufferedSegmentTranscriber) (h : s.head + e ≤ s.samples.length) :
    (s.advance_by ff e).advanced_samples = s.advanced_samples + e ∧
    (s.advance_by ff e).head ≤ (s.advance_by ff e).samples.length ∧
    (s.advance_by ff e).samples.length + (s.head + e)
      = s.samples.length + (s.advance_by ff e).head ∧
    (s.advance_by ff e).window_len + e = s.window_len := by
  simp only [BufferedSegmentTranscriber.advance_by,
    BufferedSegmentTranscriber.maybe_compact, BufferedSegmentTranscriber.window_len]
  split_ifs <;> simp [List.length_drop] <;> omega

/-- Master lemma on a successful `process_available` step: `advanced_samples`
is monotone, `head ≤ |samples|` is preserved, and an `Advanced` step advances
by some `endSamples ∈ [1, winLen]` added to both `head` (up to compaction)
and `advanced_samples`. -/
lemma process_available_ok {infer : List ℚ → List Int} {eos : Bool}
    {s : BufferedSegmentTranscriber} {r : StepResult}
    (h : process_available infer eos s = .ok r) :
    s.advanced_samples ≤ r.state.advanced_samples ∧
    (s.head ≤ s.samples.length → r.state.head ≤ r.state.samples.length) ∧
    (r.progress = .Advanced →
      ∃ e, 1 ≤ e ∧ e ≤ s.window_len ∧
        r.state.advanced_samples = s.advanced_samples + e ∧
        r.state.samples.length + (s.head + e) = s.samples.length + r.state.head ∧
        r.state.window_len + e = s.window_len) := by
  unfold process_available at h
  split at h
  · simp only [Except.ok.injEq] at h
    subst h
    simp
  split at h
  · simp only [Except.ok.injEq] at h
    subst h
    simp
  split at h
  · simp only [Except.ok.injEq] at h
    subst h
    simp
  split at h
  · split at h <;>
    · simp only [Except.ok.injEq] at h
      subst h
      simp [BufferedSegmentTranscriber.record_no_progress]
  split at h
  · simp only [Except.ok.injEq] at h
    subst h
    simp [BufferedSegmentTranscriber.record_no_progress]
  rename_i hc1 hc2 hc3 hc4 hc5
  split at h
  · exact absurd h (by simp)
  case _ last_end hget =>
    split at h
    · exact absurd h (by simp)
    case _ end_samples hend =>
      simp only [Except.ok.injEq] at h
      subst h
      obtain ⟨hle, hone⟩ := segment_end_samples_ok_bounds hend
      have hw1 : 1 ≤ s.window_len := Nat.one_le_iff_ne_zero.mpr hc1
      have he1 : 1 ≤ end_samples := hone hw1
      have hhead : s.head + end_samples ≤ s.samples.length := by
        unfold BufferedSegmentTranscriber.window_len at hle
        omega
      obtain ⟨ha, hb, hc, hd⟩ :=
        BufferedSegmentTranscriber.advance_by_spec
          (force_flush_of eos s.window_len s.max_window_samples) end_samples s hhead
      exact ⟨by simp [ha], fun _ => hb, fun _ => ⟨end_samples, he1, hle, ha, hc, hd⟩⟩

/-- On an `Advanced` step the live window strictly shrinks (used for the
termination of `finish`'s loop). -/
lemma process_available_advanced_window_lt {infer : List ℚ → List Int} {eos : Bool}
    {s : BufferedSegmentTranscriber} {r : StepResult}
    (h : process_available infer eos s = .ok r) (hp : r.progress = .Advanced) :
    r.state.window_len < s.window_len := by
  obtain ⟨-, -, hadv⟩ := process_available_ok h
  obtain ⟨e, he1, -, -, -, hwl⟩ := hadv hp
  omega

/-- The loop in `BufferedSegmentTranscriber::finish`:
`while self.process_available(true)? == Progress::Advanced {}`. -/
def finish_loop (infer : List ℚ → List Int) (s : BufferedSegmentTranscriber) :
    Except String BufferedSegmentTranscriber :=
  match h : process_available infer true s with
  | .error e => .error e
  | .ok r =>
    match hp : r.progress with
    | .Advanced => finish_loop infer r.state
    | .NoOp => .ok r.state
termination_by s.window_len
decreasing_by exact process_available_advanced_window_lt h hp

/-- `BufferedSegmentTranscriber::finish`: run the loop, then clear the buffer
and reset `head`. -/
def finish (infer : List ℚ → List Int) (s : BufferedSegmentTranscriber) :
    Except String BufferedSegmentTranscriber :=
  match finish_loop infer s with
  | .error e => .error e
  | .ok s1 => .ok { s1 with samples := [], head := 0 }

lemma finish_loop_advanced_mono {infer : List ℚ → List Int}
    {s s1 : BufferedSegmentTranscriber} (h : finish_loop infer s = .ok s1) :
    s.advanced_samples ≤ s1.advanced_samples := by
  have main : ∀ n (s s1 : BufferedSegmentTranscriber), s.window_len ≤ n →
      finish_loop infer s = .ok s1 → s.advanced_samples ≤ s1.advanced_samples := by
    intro n
    induction n with
    | zero =>
      intro s s1 hw h
      rw [finish_loop] at h
      split at h
      · exact absurd h (by simp)
      case _ r hr =>
        split at h
        case _ hp =>
          exact absurd (process_available_advanced_window_lt hr hp) (by omega)
        case _ hp =>
          simp only [Except.ok.injEq] at h
          subst h
          exact (process_available_ok hr).1
    | succ n ih =>
      intro s s1 hw h
      rw [finish_loop] at h
      split at h
      · exact absurd h (by simp)
      case _ r hr =>
        split at h
        case _ hp =>
          have hlt := process_available_advanced_window_lt hr hp
          exact le_trans (process_available_ok hr).1 (ih r.state s1 (by omega) h)
        case _ hp =>
          simp only [Except.ok.injEq] at h
          subst h
          exact (process_available_ok hr).1
  exact main s.window_len s s1 le_rfl h

/-- C7: after every `on_samples` and every `finish` operation,
`head ≤ |samples|` holds; `advanced_samples` is monotone non-decreasing; and
each successful advance adds an `endSamples` value clamped into `[1, winLen]`
to both `head` (up to the compaction that drops `samples[0..head]`) and
`advanced_samples`. -/
theorem incremental_head_and_advance_invariants (infer : List ℚ → List Int)
    (s : BufferedSegmentTranscriber) (chunk : List ℚ)
    (hinv : s.head ≤ s.samples.length) :
    (∀ r, on_samples infer s chunk = .ok r →
      r.1.head ≤ r.1.samples.length ∧ s.advanced_samples ≤ r.1.advanced_samples) ∧
    (∀ s1, finish infer s = .ok s1 →
      s1.head ≤ s1.samples.length ∧ s.advanced_samples ≤ s1.advanced_samples) ∧
    (∀ eos r, process_available infer eos s = .ok r → r.progress = .Advanced →
      ∃ e, 1 ≤ e ∧ e ≤ s.window_len ∧
        r.state.advanced_samples = s.advanced_samples + e ∧
        r.state.samples.length + (s.head + e) = s.samples.length + r.state.head) := by
  refine ⟨?_, ?_, ?_⟩
  · intro r h
    simp only [on_samples] at h
    split at h
    · exact absurd h (by simp)
    case _ r0 hr0 =>
      simp only [Except.ok.injEq] at h
      subst h
      obtain ⟨hmono, hhead, -⟩ := process_available_ok hr0
      refine ⟨hhead ?_, hmono⟩
      simp only [List.length_append]
      omega
  · intro s1 h
    unfold finish at h
    split at h
    · exact absurd h (by simp)
    case _ s2 hs2 =>
      simp only [Except.ok.injEq] at h
      subst h
      exact ⟨by simp, by simpa using finish_loop_advanced_mono hs2⟩
  · intro eos r h hp
    obtain ⟨-, -, hadv⟩ := process_available_ok h
    obtain ⟨e, he1, he2, ha, hb, -⟩ := hadv hp
    exact ⟨e, he1, he2, ha, hb⟩

/-- Concrete instantiation of the invariant theorem: one `on_samples` call
delivering one sample to a fresh transcriber state. -/
theorem incremental_head_and_advance_invariants_witness :
    (⟨16000, 480000, 16000, 0, [(0 : ℚ)], 0, 0⟩ :
        BufferedSegmentTranscriber).head
      ≤ (⟨16000, 480000, 16000, 0, [(0 : ℚ)], 0, 0⟩ :
          BufferedSegmentTranscriber).samples.length
    ∧ (0 : Nat) ≤ (⟨16000, 480000, 16000, 0, [(0 : ℚ)], 0, 0⟩ :
        BufferedSegmentTranscriber).advanced_samples :=
  (incremental_head_and_advance_invariants (fun _ => [])
      ⟨16000, 480000, 16000, 0, [], 0, 0⟩ [(0 : ℚ)] (by decide)).1
    (⟨16000, 480000, 16000, 0, [(0 : ℚ)], 0, 0⟩, true)
    (by rfl)

/-- C9: when a backend run over the live window returns zero segments and the
window is not being force-flushed, the step emits nothing, increments
`no_progress_runs`, and sets `next_infer_at_samples =
min(maxWindowSamples, winLen + minWindowSamples × 2^min(noProgressRuns − 1, 4))`
(with `noProgressRuns` the incremented value).  The saturation bounds in the
hypotheses keep the `usize`/`u32` saturating arithmetic away from its caps,
as at every reachable state. -/
theorem no_progress_backoff (infer : List ℚ → List Int)
    (s : BufferedSegmentTranscriber)
    (h0 : s.window_len ≠ 0)
    (hmin : s.min_window_samples ≤ s.window_len)
    (hmax : s.window_len < s.max_window_samples)
    (hnext : s.next_infer_at_samples ≤ s.window_len)
    (hinf : infer s.window = [])
    (hruns : s.no_progress_runs + 1 ≤ U32_MAX)
    (hsat : s.window_len + s.min_window_samples * 2 ^ MAX_BACKOFF_SHIFT ≤ USIZE_MAX) :
    process_available infer false s =
      .ok ⟨{ s with
              no_progress_runs := s.no_progress_runs + 1,
              next_infer_at_samples :=
                min s.max_window_samples
                  (s.window_len +
                    s.min_window_samples * 2 ^ min s.no_progress_runs MAX_BACKOFF_SHIFT) },
           .NoOp, 0, true⟩ := by
  have hff : force_flush_of false s.window_len s.max_window_samples = false := by
    simp only [force_flush_of, Bool.false_or]
    exact decide_eq_false (by omega)
  have hshift : 2 ^ min s.no_progress_runs MAX_BACKOFF_SHIFT
      ≤ 2 ^ MAX_BACKOFF_SHIFT :=
    Nat.pow_le_pow_right (by norm_num) (Nat.min_le_right _ _)
  unfold process_available
  rw [if_neg h0, if_neg (by omega), if_neg (by simp [hff]; omega),
    if_pos (by simp [hinf]), if_pos hff]
  simp only [Except.ok.injEq, StepResult.mk.injEq, and_true, true_and,
    BufferedSegmentTranscriber.record_no_progress, next_infer_threshold,
    satAddU32, satAddUsize, satMulUsize, BufferedSegmentTranscriber.mk.injEq]
  have h1 : min (s.no_progress_runs + 1) U32_MAX = s.no_progress_runs + 1 :=
    Nat.min_eq_left hruns
  have h2 : min (s.min_window_samples *
      2 ^ min (s.no_progress_runs + 1 - 1) MAX_BACKOFF_SHIFT) USIZE_MAX
      = s.min_window_samples * 2 ^ min s.no_progress_runs MAX_BACKOFF_SHIFT := by
    rw [Nat.add_sub_cancel]
    refine Nat.min_eq_left ?_
    calc s.min_window_samples * 2 ^ min s.no_progress_runs MAX_BACKOFF_SHIFT
        ≤ s.min_window_samples * 2 ^ MAX_BACKOFF_SHIFT :=
          Nat.mul_le_mul_left _ hshift
      _ ≤ USIZE_MAX := by omega
  rw [h1, h2]
  have h4 : s.window_len +
      s.min_window_samples * 2 ^ min s.no_progress_runs MAX_BACKOFF_SHIFT ≤ USIZE_MAX :=
    le_trans (Nat.add_le_add_left (Nat.mul_le_mul_left _ hshift) _) hsat
  exact ⟨by rw [Nat.min_eq_left h4, Nat.min_comm], rfl⟩

/-- Concrete instantiation of the no-progress backoff theorem: a two-sample
window with thresholds `min = 1`, `max = 30` and an inference oracle that
returns no segments. -/
theorem no_progress_backoff_witness :
    process_available (fun _ => ([] : List Int)) false
        (⟨1, 30, 2, 0, [(0 : ℚ), 0], 0, 0⟩ : BufferedSegmentTranscriber)
      = .ok ⟨⟨1, 30, 3, 1, [(0 : ℚ), 0], 0, 0⟩, .NoOp, 0, true⟩ := by
  have h := no_progress_backoff (fun _ => ([] : List Int))
    ⟨1, 30, 2, 0, [(0 : ℚ), 0], 0, 0⟩
    (by decide) (by decide) (by decide) (by decide) rfl
    (by decide) (by decide)
  rw [h]
  norm_num [BufferedSegmentTranscriber.window_len, MAX_BACKOFF_SHIFT]

/-- C1 (code bug): `BufferedSegmentTranscriber::new` sets
`min_window_samples = 16000 × DEFAULT_MIN_BUFFER_SECONDS = 16000` for every
`Opts` value, ignoring `opts.incremental_min_window_seconds` — contrary to the
claim (and to the field's own documentation).  With
`incremental_min_window_seconds = 2` the claimed threshold is `32000`, yet the
backend is invoked as soon as the live window reaches `16000` samples on a
live stream. -/
theorem min_window_ignores_opts :
    (∀ opts : Opts, (BufferedSegmentTranscriber.new opts).min_window_samples = 16000) ∧
    (BufferedSegmentTranscriber.new
        ⟨none, false, false, none, .Json, 2, false, none⟩).min_window_samples
      ≠ 16000 * 2 ∧
    (∃ r, process_available (fun _ => ([] : List Int)) false
        { BufferedSegmentTranscriber.new ⟨none, false, false, none, .Json, 2, false, none⟩
            with samples := List.replicate 16000 (0 : ℚ) } = .ok r ∧
      r.infer_ran = true ∧ (16000 : Nat) < 16000 * 2) := by
  refine ⟨fun _ => rfl, by decide, ?_⟩
  have h := no_progress_backoff (fun _ => ([] : List Int))
    { BufferedSegmentTranscriber.new ⟨none, false, false, none, .Json, 2, false, none⟩
        with samples := List.replicate 16000 (0 : ℚ) }
    (by norm_num [BufferedSegmentTranscriber.window_len,
        BufferedSegmentTranscriber.new, WHISPER_SAMPLE_RATE, DEFAULT_MIN_BUFFER_SECONDS])
    (by norm_num [BufferedSegmentTranscriber.window_len,
        BufferedSegmentTranscriber.new, WHISPER_SAMPLE_RATE, DEFAULT_MIN_BUFFER_SECONDS])
    (by norm_num [BufferedSegmentTranscriber.window_len,
        BufferedSegmentTranscriber.new, WHISPER_SAMPLE_RATE,
        DEFAULT_MIN_BUFFER_SECONDS, DEFAULT_MAX_BUFFER_SECONDS])
    (by norm_num [BufferedSegmentTranscriber.window_len,
        BufferedSegmentTranscriber.new, WHISPER_SAMPLE_RATE, DEFAULT_MIN_BUFFER_SECONDS])
    rfl
    (by norm_num [BufferedSegmentTranscriber.new, U32_MAX])
    (by norm_num [BufferedSegmentTranscriber.window_len,
        BufferedSegmentTranscriber.new, WHISPER_SAMPLE_RATE,
        DEFAULT_MIN_BUFFER_SECONDS, MAX_BACKOFF_SHIFT, USIZE_MAX])
  exact ⟨_, h, rfl, by norm_num⟩

/-- C2 (code bug): on a live stream the processing step never consults
`opts.emit_single_segments`: with `emit_single_segments = true`, a backend
run returning exactly one segment still emits nothing (the claim requires the
single segment to be emitted immediately).  The state below is the one
`BufferedSegmentTranscriber::new` produces for such an `Opts` after exactly
`min_window_samples = 16000` samples arrive. -/
theorem single_segment_not_emitted_live :
    ∃ r, process_available (fun _ => [(50 : Int)]) false
        { BufferedSegmentTranscriber.new ⟨none, false, false, none, .Json, 1, true, none⟩
            with samples := List.replicate 16000 (0 : ℚ) } = .ok r ∧
      r.emitted = 0 ∧ r.progress = .NoOp ∧ (0 : Nat) ≠ 1 := by
  refine ⟨⟨{ BufferedSegmentTranscriber.new ⟨none, false, false, none, .Json, 1, true, none⟩
      with samples := List.replicate 16000 (0 : ℚ),
           no_progress_runs := 1, next_infer_at_samples := 32000 },
    .NoOp, 0, true⟩, ?_, rfl, rfl, by norm_num⟩
  unfold process_available
  rw [if_neg (by norm_num [BufferedSegmentTranscriber.window_len,
      BufferedSegmentTranscriber.new, WHISPER_SAMPLE_RATE, DEFAULT_MIN_BUFFER_SECONDS])]
  rw [if_neg (by norm_num [BufferedSegmentTranscriber.window_len,
      BufferedSegmentTranscriber.new, WHISPER_SAMPLE_RATE, DEFAULT_MIN_BUFFER_SECONDS])]
  rw [if_neg (by norm_num [BufferedSegmentTranscriber.window_len,
      BufferedSegmentTranscriber.new, WHISPER_SAMPLE_RATE, DEFAULT_MIN_BUFFER_SECONDS])]
  rw [if_neg (by norm_num)]
  rw [if_pos (by
    norm_num [emit_count_of, force_flush_of, BufferedSegmentTranscriber.window_len,
      BufferedSegmentTranscriber.new, WHISPER_SAMPLE_RATE,
      DEFAULT_MIN_BUFFER_SECONDS, DEFAULT_MAX_BUFFER_SECONDS])]
  norm_num [BufferedSegmentTranscriber.record_no_progress,
    BufferedSegmentTranscriber.new, BufferedSegmentTranscriber.window_len,
    next_infer_threshold, satAddU32, satAddUsize, satMulUsize,
    WHISPER_SAMPLE_RATE, DEFAULT_MIN_BUFFER_SECONDS, DEFAULT_MAX_BUFFER_SECONDS,
    MAX_BACKOFF_SHIFT, U32_MAX, USIZE_MAX]

/-! ## Orchestrator error merging (`scribble.rs`)

`anyhow::Error` is modelled as its chain of messages: the outermost context
message first, then the earlier messages.  `err.context(msg)` pushes `msg` on
top; the alternate rendering `{:#}` joins the chain with `": "`. -/

/-- An `anyhow::Error`: the outermost message plus the rest of the chain. -/
structure AError where
  top : String
  rest : List String
  deriving Repr, DecidableEq

/-- `anyhow::Error::context`: wrap with a new outermost message. -/
def AError.context (msg : String) (e : AError) : AError :=
  ⟨msg, e.top :: e.rest⟩

/-- The `{:#}` alternate rendering of an `anyhow::Error` chain. -/
def AError.renderAlternate (e : AError) : String :=
  String.intercalate ": " (e.top :: e.rest)

/-- `scribble.rs::merge_run_and_close`. -/
def merge_run_and_close :
    Except AError Unit → Except AError Unit → Except AError Unit
  | .ok _, .ok _ => .ok ()
  | .ok _, .error close_err => .error close_err
  | .error err, .ok _ => .error err
  | .error err, .error close_err =>
    .error (AError.context close_err.renderAlternate err)

/-- The `(finish_res, decode_res)` merge at the end of
`Scribble::transcribe_with_encoder` (same shape as `merge_run_and_close`). -/
def merge_finish_and_decode :
    Except AError Unit → Except AError Unit → Except AError Unit
  | .ok _, .ok _ => .ok ()
  | .ok _, .error err => .error err
  | .error err, .ok _ => .error err
  | .error err, .error decode_err =>
    .error (AError.context decode_err.renderAlternate err)

/-- `decode_handle.join()` result handling in `transcribe_with_encoder`:
`Err(_)` (a panic) becomes the "audio decoder thread panicked" error. -/
def decode_result_of_join (join_res : Except Unit (Except AError Unit)) :
    Except AError Unit :=
  match join_res with
  | .ok res => res
  | .error _ => .error ⟨"audio decoder thread panicked", []⟩

/-- The error result of one `transcribe` call, as wired in
`Scribble::transcribe`: the run phase merges the backend stream's `finish`
result with the decoder thread's join result, then `merge_run_and_close`
merges in the encoder `close` result. -/
def transcribe_result (finish_res : Except AError Unit)
    (join_res : Except Unit (Except AError Unit))
    (close_res : Except AError Unit) : Except AError Unit :=
  merge_run_and_close (merge_finish_and_decode finish_res (decode_result_of_join join_res))
    close_res

/-- C8: when both `finish()` and the decoder result fail, the reported error
is the inference (finish) failure with the decoder error attached as context
(the decoder chain becomes the outermost context message); a decoder-thread
panic is reported as a distinct "decoder thread panicked" error; and when the
run succeeds but the later `close` fails, the close error is reported. -/
theorem transcribe_error_merge_policy (f d c : AError) :
    transcribe_result (.error f) (.ok (.error d)) (.ok ())
      = .error (AError.context d.renderAlternate f) ∧
    (transcribe_result (.ok ()) (.error ()) (.ok ())
        = .error ⟨"audio decoder thread panicked", []⟩ ∧
      "audio decoder thread panicked" = "audio " ++ "decoder thread panicked") ∧
    transcribe_result (.ok ()) (.ok (.ok ())) (.error c) = .error c := by
  exact ⟨rfl, ⟨rfl, rfl⟩, rfl⟩

/-! ## Audio pipeline chunk emission (`audio_pipeline.rs`) -/

/-- Rust `slice::chunks(k)`: consecutive pieces of `k` elements, the last
piece possibly shorter.  (`chunks(0)` panics in Rust; callers of the pipeline
always pass a positive chunk size, and the theorems below only use `k + 1`.) -/
def chunksList : Nat → List ℚ → List (List ℚ)
  | _, [] => []
  | 0, _ :: _ => []
  | k + 1, x :: xs =>
    (x :: xs).take (k + 1) :: chunksList (k + 1) ((x :: xs).drop (k + 1))
termination_by _ xs => xs.length
decreasing_by simp [List.length_drop]; omega

/-- `audio_pipeline.rs::downmix_to_mono`: equal-weight average of all
channels; identity for mono. -/
def downmix_to_mono (interleaved : List ℚ) (channels : Nat) : List ℚ :=
  if channels = 1 then interleaved
  else
    (List.range (interleaved.length / channels)).map (fun f =>
      ((List.range channels).map (fun c => interleaved.getD (f * channels + c) 0)).sum
        / channels)

/-- The chunk-delivery loop of `emit_mono_chunks` (and of the resampler
emission loops): each chunk is passed to `emit`; when `emit` answers `false`
(or fails), no further chunk of this call is delivered.  Returns the chunks
actually passed to `emit`. -/
def deliver_until_stop (cont : List ℚ → Bool) : List (List ℚ) → List (List ℚ)
  | [] => []
  | c :: cs => if cont c then c :: deliver_until_stop cont cs else [c]

/-- `audio_pipeline.rs::emit_mono_chunks`: slice the mono buffer into
`chunk_frames`-sized chunks and deliver them with early-stop semantics. -/
def emit_mono_chunks (cont : List ℚ → Bool) (mono_16k : List ℚ)
    (chunk_frames : Nat) : List (List ℚ) :=
  deliver_until_stop cont (chunksList chunk_frames mono_16k)

/-- Whether the delivery loop stopped early: some chunk made `emit` answer
`false` (or fail).  In `push_and_flush_resampler` this aborts the whole call
(`return Ok(())`); in `finalize` and `emit_mono_chunks` it only breaks the
loop over the current buffer. -/
def deliver_stop_flag (cont : List ℚ → Bool) : List (List ℚ) → Bool
  | [] => false
  | c :: cs => if cont c then deliver_stop_flag cont cs else true

/-- All delivered chunks hold between 1 and `k` samples, and every chunk but
the last holds exactly `k`. -/
def chunkSizesOk (k : Nat) : List (List ℚ) → Prop
  | [] => True
  | [c] => 1 ≤ c.length ∧ c.length ≤ k
  | c :: rest => c.length = k ∧ chunkSizesOk k rest

/-- A chunk list that is the concatenation of consecutive batches, each of
which satisfies `chunkSizesOk k` (one batch per sliced buffer). -/
def chunkBatchesOk (k : Nat) (l : List (List ℚ)) : Prop :=
  ∃ batches : List (List (List ℚ)), l = batches.flatten ∧ ∀ b ∈ batches, chunkSizesOk k b

/-- The block-draining loop of `AudioPipeline::push_and_flush_resampler`:
while the accumulator holds at least one full `in_max`-sample input block,
drain one block, resample it (`resample` is the external `rubato` call,
treated as an oracle) and deliver its output sliced into
`target_chunk_frames` chunks; an early stop returns from the whole call.
Returns the remaining accumulator and all chunks delivered to `emit`.
(The source loop would not terminate for `in_max = 0`; `ensure_resampler`
always configures `in_max = 2048`, and the guard makes the model total.) -/
def resampler_loop (resample : List ℚ → List ℚ) (cont : List ℚ → Bool)
    (in_max target : Nat) (acc : List ℚ) : List ℚ × List (List ℚ) :=
  if h : 0 < in_max ∧ in_max ≤ acc.length then
    if deliver_stop_flag cont (chunksList target (resample (acc.take in_max))) then
      (acc.drop in_max, emit_mono_chunks cont (resample (acc.take in_max)) target)
    else
      ((resampler_loop resample cont in_max target (acc.drop in_max)).1,
        emit_mono_chunks cont (resample (acc.take in_max)) target
          ++ (resampler_loop resample cont in_max target (acc.drop in_max)).2)
  else (acc, [])
termination_by acc.length
decreasing_by simp [List.length_drop]; omega

/-- `AudioPipeline::push_and_flush_resampler`: extend the accumulator with
the new mono samples, then drain full blocks. -/
def push_and_flush_resampler (resample : List ℚ → List ℚ) (cont : List ℚ → Bool)
    (in_max target : Nat) (acc mono_src : List ℚ) : List ℚ × List (List ℚ) :=
  resampler_loop resample cont in_max target (acc ++ mono_src)

/-- `AudioPipeline::push_decoded_and_emit`: downmix the decoded frame; at
`src_rate = 16000` emit fixed-size chunks directly (fast path, accumulator
untouched); otherwise feed the resampler path.  Returns the updated
`mono_src_acc` and the chunks delivered to `emit`. -/
def push_decoded_and_emit (resample : List ℚ → List ℚ) (cont : List ℚ → Bool)
    (interleaved : List ℚ) (channels src_rate in_max target_chunk_frames : Nat)
    (acc : List ℚ) : List ℚ × List (List ℚ) :=
  if src_rate = 16000 then
    (acc, emit_mono_chunks cont (downmix_to_mono interleaved channels) target_chunk_frames)
  else
    push_and_flush_resampler resample cont in_max target_chunk_frames acc
      (downmix_to_mono interleaved channels)

/-- The block loop of `AudioPipeline::finalize`: after padding, drain one
block at a time and deliver each block's resampled output in
`target`-sized chunks (`emit_mono_chunks` only breaks the loop over the
current block, so later blocks are still delivered). -/
def finalize_loop (resample : List ℚ → List ℚ) (cont : List ℚ → Bool)
    (in_max target : Nat) (acc : List ℚ) : List (List ℚ) :=
  if h : 0 < in_max ∧ in_max ≤ acc.length then
    emit_mono_chunks cont (resample (acc.take in_max)) target
      ++ finalize_loop resample cont in_max target (acc.drop in_max)
  else []
termination_by acc.length
decreasing_by simp [List.length_drop]; omega

/-- `AudioPipeline::finalize`: no-op on an empty accumulator (or when the
resampler was never constructed); otherwise zero-pad the remainder to a
multiple of `in_max` and drain to completion. -/
def finalize (resample : List ℚ → List ℚ) (cont : List ℚ → Bool)
    (in_max target : Nat) (acc : List ℚ) : List (List ℚ) :=
  if acc = [] then []
  else
    finalize_loop resample cont in_max target
      (if acc.length % in_max ≠ 0 then
        acc ++ List.replicate (in_max - acc.length % in_max) 0
      else acc)

lemma chunksList_ne_nil (k : Nat) (x : ℚ) (xs : List ℚ) :
    chunksList (k + 1) (x :: xs) ≠ [] := by
  rw [chunksList]
  simp

lemma chunksList_sizesOk (k : Nat) (xs : List ℚ) :
    chunkSizesOk (k + 1) (chunksList (k + 1) xs) := by
  generalize hn : xs.length = n
  induction n using Nat.strong_induction_on generalizing xs with
  | _ n ih =>
    cases xs with
    | nil => simp [chunksList, chunkSizesOk]
    | cons x xs' =>
      rw [chunksList]
      rcases hd : (x :: xs').drop (k + 1) with _ | ⟨y, ys⟩
      · have hlen := congrArg List.length hd
        simp only [List.length_drop, List.length_cons, List.length_nil] at hlen
        simp only [chunksList, chunkSizesOk, List.length_take, List.length_cons]
        omega
      · have hlen := congrArg List.length hd
        simp only [List.length_drop, List.length_cons] at hlen
        simp only [List.length_cons] at hn
        have hrec : chunkSizesOk (k + 1) (chunksList (k + 1) (y :: ys)) := by
          refine ih (y :: ys).length ?_ _ rfl
          simp only [List.length_cons]
          omega
        have hne := chunksList_ne_nil k y ys
        rcases hc : chunksList (k + 1) (y :: ys) with _ | ⟨c, cs⟩
        · exact absurd hc hne
        · rw [hc] at hrec
          show ((x :: xs').take (k + 1)).length = k + 1 ∧ chunkSizesOk (k + 1) (c :: cs)
          refine ⟨?_, hrec⟩
          simp only [List.length_take, List.length_cons]
          omega

lemma deliver_until_stop_sizesOk (k : Nat) (cont : List ℚ → Bool)
    (l : List (List ℚ)) (h : chunkSizesOk (k + 1) l) :
    chunkSizesOk (k + 1) (deliver_until_stop cont l) := by
  induction l with
  | nil => simpa [deliver_until_stop] using h
  | cons c cs ihl =>
    rcases cs with _ | ⟨c2, cs2⟩
    · simp only [deliver_until_stop]
      split <;> simpa using h
    · obtain ⟨hc, hrest⟩ := h
      rw [deliver_until_stop]
      split
      · have hd := ihl hrest
        rcases he : deliver_until_stop cont (c2 :: cs2) with _ | ⟨d, ds⟩
        · simp only [deliver_until_stop] at he
          split at he <;> exact absurd he (by simp)
        · rw [he] at hd
          exact ⟨hc, hd⟩
      · exact ⟨by omega, by omega⟩

lemma emit_mono_chunks_sizesOk (k : Nat) (cont : List ℚ → Bool) (mono : List ℚ) :
    chunkSizesOk (k + 1) (emit_mono_chunks cont mono (k + 1)) :=
  deliver_until_stop_sizesOk k cont _ (chunksList_sizesOk k mono)

lemma chunkSizesOk_bounds {k : Nat} (hk : 1 ≤ k) :
    ∀ l, chunkSizesOk k l → ∀ c ∈ l, 1 ≤ c.length ∧ c.length ≤ k := by
  intro l
  induction l with
  | nil =>
    intro _ c hc
    exact absurd hc (by simp)
  | cons a l ihl =>
    intro h c hc
    rcases l with _ | ⟨b, l'⟩
    · have hca : c = a := by simpa using hc
      subst hca
      exact h
    · obtain ⟨ha, hrest⟩ := h
      rcases List.mem_cons.mp hc with rfl | hc'
      · omega
      · exact ihl hrest c hc'

lemma chunkBatchesOk_nil (k : Nat) : chunkBatchesOk k [] :=
  ⟨[], rfl, by simp⟩

lemma chunkBatchesOk_single {k : Nat} {l : List (List ℚ)} (h : chunkSizesOk k l) :
    chunkBatchesOk k l :=
  ⟨[l], by simp, by simpa using h⟩

lemma chunkBatchesOk_cons {k : Nat} {l1 l2 : List (List ℚ)}
    (h1 : chunkSizesOk k l1) (h2 : chunkBatchesOk k l2) :
    chunkBatchesOk k (l1 ++ l2) := by
  obtain ⟨bs, rfl, hb⟩ := h2
  refine ⟨l1 :: bs, by simp, ?_⟩
  intro b hbmem
  rcases List.mem_cons.mp hbmem with rfl | hmem
  · exact h1
  · exact hb b hmem

lemma chunkBatchesOk_bounds {k : Nat} {l : List (List ℚ)} (hk : 1 ≤ k)
    (h : chunkBatchesOk k l) : ∀ c ∈ l, 1 ≤ c.length ∧ c.length ≤ k := by
  obtain ⟨bs, rfl, hb⟩ := h
  intro c hc
  obtain ⟨b, hbmem, hcb⟩ := List.mem_flatten.mp hc
  exact chunkSizesOk_bounds hk b (hb b hbmem) c hcb

lemma resampler_loop_batches (resample : List ℚ → List ℚ) (cont : List ℚ → Bool)
    (in_max k : Nat) (acc : List ℚ) :
    chunkBatchesOk (k + 1) (resampler_loop resample cont in_max (k + 1) acc).2 := by
  generalize hn : acc.length = n
  induction n using Nat.strong_induction_on generalizing acc with
  | _ n ih =>
    rw [resampler_loop]
    split
    case isTrue h =>
      split
      · exact chunkBatchesOk_single (emit_mono_chunks_sizesOk k cont _)
      · refine chunkBatchesOk_cons (emit_mono_chunks_sizesOk k cont _) ?_
        refine ih (acc.drop in_max).length ?_ _ rfl
        simp only [List.length_drop]
        omega
    case isFalse h =>
      exact chunkBatchesOk_nil _

lemma finalize_loop_batches (resample : List ℚ → List ℚ) (cont : List ℚ → Bool)
    (in_max k : Nat) (acc : List ℚ) :
    chunkBatchesOk (k + 1) (finalize_loop resample cont in_max (k + 1) acc) := by
  generalize hn : acc.length = n
  induction n using Nat.strong_induction_on generalizing acc with
  | _ n ih =>
    rw [finalize_loop]
    split
    case isTrue h =>
      refine chunkBatchesOk_cons (emit_mono_chunks_sizesOk k cont _) ?_
      refine ih (acc.drop in_max).length ?_ _ rfl
      simp only [List.length_drop]
      omega
    case isFalse h =>
      exact chunkBatchesOk_nil _

/-- C3 (amended): every chunk the pipeline passes to `emit` holds between 1
and `targetChunkFrames` samples.  The chunks of one call decompose into
consecutive batches — the single downmixed frame on the 16 kHz fast path,
one batch per resampled input block on the resampling path and on the
finalize flush — and within each batch every chunk but the last holds
exactly `targetChunkFrames`.  A short chunk can therefore end any batch
(e.g. a mid-stream frame or any resampled block whose output is not a
multiple of `targetChunkFrames`), not only the last chunk of a finalize
flush. -/
theorem pipeline_chunk_sizes_bounded (resample : List ℚ → List ℚ)
    (cont : List ℚ → Bool) (mono interleaved acc : List ℚ)
    (channels in_max k : Nat) :
    chunkSizesOk (k + 1) (emit_mono_chunks cont mono (k + 1)) ∧
    chunkSizesOk (k + 1)
      (push_decoded_and_emit resample cont interleaved channels 16000 in_max
        (k + 1) acc).2 ∧
    chunkBatchesOk (k + 1)
      (push_and_flush_resampler resample cont in_max (k + 1) acc mono).2 ∧
    chunkBatchesOk (k + 1) (finalize resample cont in_max (k + 1) acc) ∧
    (∀ c ∈ (push_and_flush_resampler resample cont in_max (k + 1) acc mono).2,
      1 ≤ c.length ∧ c.length ≤ k + 1) ∧
    (∀ c ∈ finalize resample cont in_max (k + 1) acc,
      1 ≤ c.length ∧ c.length ≤ k + 1) := by
  have hfin : chunkBatchesOk (k + 1) (finalize resample cont in_max (k + 1) acc) := by
    unfold finalize
    split
    · exact chunkBatchesOk_nil _
    · exact finalize_loop_batches resample cont in_max k _
  refine ⟨emit_mono_chunks_sizesOk k cont mono, ?_, ?_, hfin, ?_, ?_⟩
  · simp only [push_decoded_and_emit, if_pos rfl]
    exact emit_mono_chunks_sizesOk k cont _
  · exact resampler_loop_batches resample cont in_max k _
  · exact chunkBatchesOk_bounds (by omega)
      (resampler_loop_batches resample cont in_max k _)
  · exact chunkBatchesOk_bounds (by omega) hfin

/-- C3 (counterexample): a mid-stream decoded mono frame of 5 samples at
16 kHz with `targetChunkFrames = 4` makes `push_decoded_and_emit` deliver the
chunks `[4, 1]` — the final chunk is short although this is not a finalize
flush, refuting "never delivers a short chunk for a mid-stream decoded
frame". -/
theorem short_chunk_mid_stream :
    List.map List.length
        (push_decoded_and_emit (fun l => l) (fun _ => true)
          (List.replicate 5 (0 : ℚ)) 1 16000 2048 4 []).2 = [4, 1] ∧
    (1 : Nat) ≠ 4 := by
  constructor
  · norm_num [push_decoded_and_emit, emit_mono_chunks, deliver_until_stop,
      chunksList, downmix_to_mono, List.replicate]
  · decide

/-! ## VAD stream filter (`vad/stream.rs`, `vad/to_speech.rs`)

The VAD neural network call (`segments_from_samples` followed by
`speech_ranges_with_policy`) is abstracted as an oracle
`detect : List ℚ → Option (List (Nat × Nat))` mapping a window to the
selected speech sample ranges (`none` = no speech anywhere in the window).
The gain application on the `some` path is embedded from the source.
`last_speech_instant` (a wall-clock timestamp) and `out_cursor` compaction do
not affect the properties below and are carried / omitted accordingly. -/

/-- `vad/to_speech.rs::scale_samples`: multiply by the gain, with a
memset-zero fast path for gain 0. -/
def scale_samples (buf : List ℚ) (gain : ℚ) : List ℚ :=
  if gain = 0 then buf.map (fun _ => 0) else buf.map (fun s => s * gain)

/-- `vad/to_speech.rs::apply_non_speech_gain_in_place`: clamp the gain to
`[0, 1]`, skip when it is within `f32::EPSILON = 2⁻²³` of 1, otherwise scale
the gap before each speech range and the tail after the last one. -/
def apply_non_speech_gain_in_place (samples : List ℚ) (ranges : List (Nat × Nat))
    (gain : ℚ) : List ℚ :=
  let gain := max 0 (min gain 1)
  if |gain - 1| < (1 / 8388608 : ℚ) then samples
  else
    let step := ranges.foldl (fun (acc : List ℚ × Nat) se =>
      let s := min se.1 acc.1.length
      let e := min se.2 acc.1.length
      let buf :=
        if acc.2 < s then
          acc.1.take acc.2 ++ scale_samples ((acc.1.drop acc.2).take (s - acc.2)) gain
            ++ acc.1.drop s
        else acc.1
      (buf, max acc.2 e)) (samples, 0)
    if step.2 < step.1.length then
      step.1.take step.2 ++ scale_samples (step.1.drop step.2) gain
    else step.1

/-- `vad/to_speech.rs::to_speech_only_with_policy`, with the VAD ranges given
by the oracle: `none` means no range was selected (`Ok(false)`, buffer
untouched); `some ranges` attenuates non-speech and reports `true`. -/
def to_speech_only_with_policy (ranges : Option (List (Nat × Nat)))
    (policy : VadPolicy) (samples : List ℚ) : Bool × List ℚ :=
  match ranges with
  | none => (false, samples)
  | some rs => (true, apply_non_speech_gain_in_place samples rs policy.non_speech_gain)

/-- `vad/stream.rs::ms_to_samples`. -/
def ms_to_samples (ms : Nat) (sample_rate : ℚ) : Nat :=
  castToU64 (rustRound ((ms / 1000 : ℚ) * sample_rate))

/-- `vad/stream.rs::VadStream` state (the wall-clock `last_speech_instant`
is omitted). -/
structure VadStream where
  policy : VadPolicy
  window_frames : Nat
  holdback_frames : Nat
  pending_tail : List ℚ
  in_buf : List ℚ
  out_buf : List ℚ
  out_cursor : Nat
  deriving Repr, DecidableEq

/-- `VadStream::new`. -/
def VadStream.new (policy : VadPolicy) : VadStream :=
  { policy,
    window_frames := 16000 * 2,
    holdback_frames :=
      ms_to_samples (max (max policy.pre_pad_ms policy.post_pad_ms) policy.gap_merge_ms)
        16000,
    pending_tail := [], in_buf := [], out_buf := [], out_cursor := 0 }

/-- The analysis window of one `process_ready_windows` iteration:
`pendingTail ++ segment` where `segment` is the drained `window_frames`
samples. -/
def VadStream.analysis_window (st : VadStream) : List ℚ :=
  st.pending_tail ++ st.in_buf.take st.window_frames

/-- The `has_speech` flag of `vad.apply` on the current analysis window. -/
def VadStream.window_has_speech (detect : List ℚ → Option (List (Nat × Nat)))
    (st : VadStream) : Bool :=
  (to_speech_only_with_policy (detect st.analysis_window) st.policy st.analysis_window).1

/-- The attenuated analysis window produced by `vad.apply` (in-place in the
source). -/
def VadStream.window_after_vad (detect : List ℚ → Option (List (Nat × Nat)))
    (st : VadStream) : List ℚ :=
  (to_speech_only_with_policy (detect st.analysis_window) st.policy st.analysis_window).2

/-- One iteration of the loop body of `VadStream::process_ready_windows`
(already knowing `in_buf.len ≥ window_frames`): drain one analysis window,
run VAD, drop the window entirely when no speech was found, otherwise append
it to `out_buf` keeping the holdback tail. -/
def VadStream.step_window (detect : List ℚ → Option (List (Nat × Nat)))
    (st : VadStream) : VadStream :=
  if VadStream.window_has_speech detect st = false then
    { st with
        in_buf := st.in_buf.drop st.window_frames,
        pending_tail := [] }
  else if 0 < st.holdback_frames ∧
      st.holdback_frames < (VadStream.window_after_vad detect st).length then
    { st with
        in_buf := st.in_buf.drop st.window_frames,
        out_buf := st.out_buf ++ (VadStream.window_after_vad detect st).take
          ((VadStream.window_after_vad detect st).length - st.holdback_frames),
        pending_tail := (VadStream.window_after_vad detect st).drop
          ((VadStream.window_after_vad detect st).length - st.holdback_frames) }
  else
    { st with
        in_buf := st.in_buf.drop st.window_frames,
        out_buf := st.out_buf ++ VadStream.window_after_vad detect st,
        pending_tail := [] }

lemma VadStream.step_window_in_buf (detect : List ℚ → Option (List (Nat × Nat)))
    (st : VadStream) :
    (st.step_window detect).in_buf = st.in_buf.drop st.window_frames ∧
    (st.step_window detect).window_frames = st.window_frames := by
  unfold VadStream.step_window
  split_ifs <;> exact ⟨rfl, rfl⟩

/-- `VadStream::process_ready_windows`: process full analysis windows while
available.  (With `window_frames = 0` the source loop would not terminate;
`VadStream::new` always sets `window_frames = 32000`, and the guard makes the
model total.) -/
def VadStream.process_ready_windows (detect : List ℚ → Option (List (Nat × Nat)))
    (st : VadStream) : VadStream :=
  if h : 0 < st.window_frames ∧ st.window_frames ≤ st.in_buf.length then
    VadStream.process_ready_windows detect (st.step_window detect)
  else st
termination_by st.in_buf.length
decreasing_by
  rw [(VadStream.step_window_in_buf detect st).1]
  simp only [List.length_drop]
  omega

/-- `VadStream::push`. -/
def VadStream.push (detect : List ℚ → Option (List (Nat × Nat)))
    (st : VadStream) (chunk : List ℚ) : VadStream :=
  VadStream.process_ready_windows detect { st with in_buf := st.in_buf ++ chunk }

/-- The final flush window: `pending_tail ++ in_buf`. -/
def VadStream.flush_window (st : VadStream) : List ℚ :=
  st.pending_tail ++ st.in_buf

/-- `VadStream::flush`: process ready windows, then run one final VAD pass
over `pending_tail ++ in_buf` (clearing both) and append it to `out_buf`
only when it contains speech. -/
def VadStream.flush (detect : List ℚ → Option (List (Nat × Nat)))
    (st : VadStream) : VadStream :=
  if (st.process_ready_windows detect).flush_window = [] then
    { st.process_ready_windows detect with
        pending_tail := [],
        in_buf := [] }
  else if (to_speech_only_with_policy
        (detect (st.process_ready_windows detect).flush_window)
        (st.process_ready_windows detect).policy
        (st.process_ready_windows detect).flush_window).1 then
    { st.process_ready_windows detect with
        pending_tail := [],
        in_buf := [],
        out_buf := (st.process_ready_windows detect).out_buf ++
          (to_speech_only_with_policy
            (detect (st.process_ready_windows detect).flush_window)
            (st.process_ready_windows detect).policy
            (st.process_ready_windows detect).flush_window).2 }
  else
    { st.process_ready_windows detect with
        pending_tail := [],
        in_buf := [] }

/-- C10: whenever the VAD oracle reports no speech anywhere in an analysis
window — a full 2-second window of `process_ready_windows` or the final flush
window — the whole window is discarded: nothing is appended to `out_buf` and
`pending_tail` is cleared.  The state quantifier covers every policy and so
every `non_speech_gain` value, not only gain 0. -/
theorem vad_drops_windows_without_speech :
    (∀ (detect : List ℚ → Option (List (Nat × Nat))) (st : VadStream),
      detect st.analysis_window = none →
      (st.step_window detect).out_buf = st.out_buf ∧
        (st.step_window detect).pending_tail = []) ∧
    (∀ (detect : List ℚ → Option (List (Nat × Nat))) (st : VadStream),
      detect (st.process_ready_windows detect).flush_window = none →
      (st.flush detect).out_buf = (st.process_ready_windows detect).out_buf ∧
        (st.flush detect).pending_tail = [] ∧ (st.flush detect).in_buf = []) := by
  constructor
  · intro detect st hdet
    unfold VadStream.step_window VadStream.window_has_speech
    rw [hdet]
    simp [to_speech_only_with_policy]
  · intro detect st hdet
    unfold VadStream.flush
    split
    · exact ⟨rfl, rfl, rfl⟩
    · rw [hdet]
      simp [to_speech_only_with_policy]

/-- Concrete instantiation of the drop theorem: a no-speech oracle and a
policy with `non_speech_gain = 1/2` (nonzero), three buffered samples,
two-sample windows, a pending tail and prior output. -/
theorem vad_drops_windows_without_speech_witness :
    ((⟨⟨1/2, 250, 250, 250, 300, 1/2⟩, 2, 1, [(5 : ℚ)], [(1 : ℚ), 2, 3], [(7 : ℚ)], 0⟩ :
        VadStream).step_window (fun _ => none)).out_buf = [(7 : ℚ)] ∧
    ((⟨⟨1/2, 250, 250, 250, 300, 1/2⟩, 2, 1, [(5 : ℚ)], [(1 : ℚ), 2, 3], [(7 : ℚ)], 0⟩ :
        VadStream).step_window (fun _ => none)).pending_tail = [] :=
  vad_drops_windows_without_speech.1 (fun _ => none)
    ⟨⟨1/2, 250, 250, 250, 300, 1/2⟩, 2, 1, [(5 : ℚ)], [(1 : ℚ), 2, 3], [(7 : ℚ)], 0⟩
    rfl

end Scribble
